import Mathlib

/-!
# Verification of the framer-motion-audio feature pipeline

Shallow embedding of the audio-to-visual pipeline:

* `binMap` embeds the log-spaced FFT-bin aggregation of `Equalizer.tsx`
  (`binMap` memo, lines 102–118).
* `barAvg` / `barPx` embed the per-bar aggregation of the bar loop
  (`Equalizer.tsx`, lines 206–226), and `barLoopBody` the whole frame body.
* `rippleLevel` embeds the RMS level computation of the ripple loop
  (`VoiceRipples`, lines 195–206).
* `rippleLoopBody` embeds the ripple frame body (lines 185–226): the
  cancellation check, the connected check, level update, edge-triggered
  spawn with cooldown, pool truncation, and previous-level update.
* `spawnPool` embeds the pool update closure passed to `setRipples`
  (lines 217–221).
* `teardown` embeds the effect cleanup (lines 273–279).

Machine numbers are embedded as exact rationals (for the trigger/pool state
machine, whose operations are field arithmetic and comparisons) or reals
(for the paths that use `Math.sqrt` and fractional `Math.pow`).
-/

namespace FMAudio

/-- `clamp` from `Equalizer.tsx` line 48: `Math.max(min, Math.min(max, v))`,
specialised to the integer (floored) indices it is applied to. -/
def clamp (v lo hi : ℤ) : ℤ := max lo (min hi v)

/-- One entry of the bin mapping: `{ start, end }` in the source
(`end` is a reserved word in Lean, embedded as `endIdx`). -/
structure BinRange where
  start : ℤ
  endIdx : ℤ
  deriving DecidableEq, Repr

/-- The raw (pre-floor) exponential position for fraction `t` of the way
through the spectrum: `minIdx + ((10^t - 1) / (10 - 1)) * (maxIdx - minIdx)`
with `minIdx = 2`, `maxIdx = fftSize/2 - 1` (`Equalizer.tsx` lines 105–114). -/
noncomputable def binPos (bars fftSize : ℕ) (i : ℕ) : ℝ :=
  let minIdx : ℝ := 2
  let maxIdx : ℝ := ((fftSize : ℤ) / 2 - 1 : ℤ)
  let t : ℝ := (i : ℝ) / (bars : ℝ)
  minIdx + ((10 : ℝ) ^ t - 1) / (10 - 1) * (maxIdx - minIdx)

/-- Entry `i` of the bin mapping (`Equalizer.tsx` lines 109–116):
`start = clamp(floor(pos t0), minIdx, maxIdx)`,
`end = clamp(floor(pos t1), minIdx + 1, maxIdx)` with `t0 = i/bars`,
`t1 = (i+1)/bars`. -/
noncomputable def binEntry (bars fftSize : ℕ) (i : ℕ) : BinRange :=
  let minIdx : ℤ := 2
  let maxIdx : ℤ := (fftSize : ℤ) / 2 - 1
  { start := clamp ⌊binPos bars fftSize i⌋ minIdx maxIdx
    endIdx := clamp ⌊binPos bars fftSize (i + 1)⌋ (minIdx + 1) maxIdx }

/-- The full bin mapping: one entry per bar (`Equalizer.tsx` lines 102–118). -/
noncomputable def binMap (bars fftSize : ℕ) : List BinRange :=
  (List.range bars).map (binEntry bars fftSize)

/-- Per-bar average of the magnitude buffer over the half-open index range
`[start, end)`, with the `count ? sum / count : 0` guard
(`Equalizer.tsx` lines 208–214). The buffer is a total index function, as
all accesses in range are in bounds. -/
noncomputable def barAvg (r : BinRange) (buf : ℤ → ℝ) : ℝ :=
  let count : ℕ := (Finset.Ico r.start r.endIdx).card
  let sum : ℝ := (Finset.Ico r.start r.endIdx).sum buf
  if count = 0 then 0 else sum / count

/-- Pixel height of one bar (`Equalizer.tsx` lines 214–222):
normalize by 255, compress with exponent 0.6, then remap into
`[0.15 * containerHeight, 0.85 * containerHeight]`. -/
noncomputable def barPx (r : BinRange) (buf : ℤ → ℝ) (containerHeight : ℝ) : ℝ :=
  let norm := barAvg r buf / 255
  let compressed := norm ^ (0.6 : ℝ)
  let minHeight := containerHeight * 0.15
  let maxHeight := containerHeight * 0.85
  let heightRange := maxHeight - minHeight
  minHeight + compressed * heightRange

/-- One frame of the bar loop (`Equalizer.tsx` lines 188–232).
Returns the emitted bar heights (`none` when `setBarHeights` is not called)
and whether the loop re-armed itself via `requestAnimationFrame`.
`connected` is `ctx.state === 'running' && !(element mode && audio paused)`. -/
noncomputable def barLoopBody (cancelled connected : Bool) (bars : ℕ)
    (binL : List BinRange) (buf : ℤ → ℝ) (containerHeight : ℝ) :
    Option (List ℝ) × Bool :=
  if cancelled then (none, false)
  else if ¬connected then
    (some (List.replicate bars (max 20 (containerHeight * 0.15))), true)
  else
    (some (binL.map fun r => barPx r buf containerHeight), true)

/-- RMS-derived level of the ripple path (`VoiceRipples` lines 195–206):
each byte sample is mapped through `(b - 128) / 128`, squared and summed,
the mean is square-rooted, and a gain of 1.8 is applied, clamped at 1. -/
noncomputable def rippleLevel (buf : List ℕ) : ℝ :=
  let sum : ℝ := (buf.map fun b => (((b : ℝ) - 128) / 128) ^ 2).sum
  let rms : ℝ := Real.sqrt (sum / (buf.length : ℝ))
  min 1 (rms * 1.8)

/-- The pool update closure passed to `setRipples` on a spawn
(`VoiceRipples` lines 217–221): append the new id, and if the length now
exceeds `maxRipples`, keep only the last `maxRipples` entries
(`next.slice(next.length - maxRipples)`). -/
def spawnPool {α : Type} (maxRipples : ℕ) (arr : List α) (id : α) : List α :=
  let next := arr ++ [id]
  if next.length > maxRipples then next.drop (next.length - maxRipples) else next

/-- Mutable state carried across ripple-loop frames: `prevLevelRef`,
`lastSpawnRef`, the motion value `levelMv`, the `ripples` React state
(ids), and — as an observation history for the temporal claims — the list
of spawn timestamps in spawn order. -/
structure LoopState where
  prevLevel : ℚ
  lastSpawn : ℚ
  level : ℚ
  ripples : List ℚ
  spawns : List ℚ
  deriving DecidableEq, Repr

/-- Per-frame inputs of the ripple loop: whether the graph is connected
(`ctx.state === 'running'` and, in element mode, the endpoint not paused),
`performance.now()`, the compressed RMS level the frame would compute, and
the `Math.random()` tie-breaker used to build the ripple id. -/
structure FrameInput where
  connected : Bool
  now : ℚ
  level : ℚ
  rand : ℚ
  deriving DecidableEq, Repr

/-- The initial ripple-loop state: `prevLevelRef = 0`, `lastSpawnRef = 0`,
level 0, empty pool, no spawns yet (`VoiceRipples` lines 100–101, 121). -/
def initLoopState : LoopState :=
  { prevLevel := 0, lastSpawn := 0, level := 0, ripples := [], spawns := [] }

/-- One frame of the ripple loop (`VoiceRipples` lines 185–226).
Returns the next state and whether the loop re-armed itself.
The branches mirror the source: the `cancelled` early return; the
not-connected early return that sets the level to 0 and re-arms; otherwise
the level update, the edge-triggered spawn with cooldown (recording the
spawn time, setting `lastSpawnRef`, and pushing `now + rand` through the
pool update), and the unconditional `prevLevelRef` update. -/
def rippleLoopBody (sensitivity cooldownMs : ℚ) (maxRipples : ℕ)
    (cancelled : Bool) (s : LoopState) (f : FrameInput) : LoopState × Bool :=
  if cancelled then (s, false)
  else if ¬f.connected then ({ s with level := 0 }, true)
  else
    let compressed := f.level
    let s1 := { s with level := compressed }
    let s2 :=
      if compressed ≥ sensitivity ∧ s.prevLevel < sensitivity ∧
          f.now - s.lastSpawn > cooldownMs then
        { s1 with lastSpawn := f.now
                  ripples := spawnPool maxRipples s1.ripples (f.now + f.rand)
                  spawns := s1.spawns ++ [f.now] }
      else s1
    ({ s2 with prevLevel := compressed }, true)

/-- Running the (un-torn-down) ripple loop over a sequence of frames. -/
def rippleLoopRun (sensitivity cooldownMs : ℚ) (maxRipples : ℕ)
    (s : LoopState) (frames : List FrameInput) : LoopState :=
  frames.foldl (fun s f => (rippleLoopBody sensitivity cooldownMs maxRipples false s f).1) s

/-- Scheduler-visible teardown state: the closure's `cancelled` flag and the
pending `requestAnimationFrame` handle (`rafRef`). -/
structure SchedulerState where
  cancelled : Bool
  pending : Option ℕ
  deriving DecidableEq, Repr

/-- The effect cleanup (`VoiceRipples` lines 273–279, `Equalizer.tsx`
lines 270–277): set `cancelled` and cancel any pending scheduled frame. -/
def teardown (_st : SchedulerState) : SchedulerState :=
  { cancelled := true, pending := none }

/-! ## Theorems -/

/-- C3: After every spawn operation on the ripple pool, the pool's length is
at most `maxRipples`; the result is a suffix of the appended list (eviction
happens only at the front); the newest id is always retained; and with
`maxRipples = 3`, four spawns `e1..e4` in order retain exactly `[e2, e3, e4]`. -/
theorem spawnPool_bounded_fifo {α : Type} (maxRipples : ℕ) (arr : List α) (id : α)
    (h : 0 < maxRipples) :
    (spawnPool maxRipples arr id).length ≤ maxRipples ∧
    spawnPool maxRipples arr id <:+ arr ++ [id] ∧
    id ∈ spawnPool maxRipples arr id ∧
    spawnPool 3 (spawnPool 3 (spawnPool 3 (spawnPool 3 ([] : List ℕ) 1) 2) 3) 4 =
      [2, 3, 4] := by
  refine ⟨?_, ?_, ?_, by decide⟩
  · rw [spawnPool]
    split
    · simp; omega
    · rename_i hlen
      simp at hlen ⊢
      omega
  · rw [spawnPool]
    split
    · exact List.drop_suffix _ _
    · exact List.suffix_refl _
  · rw [spawnPool]
    split
    · rename_i hlen
      simp only [List.length_append, List.length_singleton] at hlen
      rw [List.drop_append_of_le_length (by simp; omega)]
      simp
    · simp

/-- C3 witness at `maxRipples = 3`, `arr = []`, `id = 1`. -/
theorem spawnPool_bounded_fifo_witness :
    (spawnPool 3 ([] : List ℕ) 1).length ≤ 3 ∧
    spawnPool 3 ([] : List ℕ) 1 <:+ [] ++ [1] ∧
    1 ∈ spawnPool 3 ([] : List ℕ) 1 ∧
    spawnPool 3 (spawnPool 3 (spawnPool 3 (spawnPool 3 ([] : List ℕ) 1) 2) 3) 4 =
      [2, 3, 4] :=
  spawnPool_bounded_fifo 3 [] 1 (by decide)

/-- C9: After `teardown`, the cancellation flag is set and the pending frame
handle is cancelled; and a frame body that runs with the cancellation flag
set is a no-op: it leaves the state untouched, emits nothing, and does not
re-arm itself. -/
theorem teardown_cancels_and_inflight_noop (st : SchedulerState)
    (sensitivity cooldownMs : ℚ) (maxRipples : ℕ) (s : LoopState) (f : FrameInput)
    (connected : Bool) (bars : ℕ) (binL : List BinRange) (buf : ℤ → ℝ)
    (containerHeight : ℝ) :
    (teardown st).cancelled = true ∧
    (teardown st).pending = none ∧
    rippleLoopBody sensitivity cooldownMs maxRipples (teardown st).cancelled s f =
      (s, false) ∧
    barLoopBody (teardown st).cancelled connected bars binL buf containerHeight =
      (none, false) :=
  ⟨rfl, rfl, rfl, rfl⟩

/-- C6: On a frame where the loop is live but the graph is not connected
(context not running, or paused endpoint in element mode), the ripple loop
emits a zero level and re-arms, leaving the rest of its state untouched,
and the bar loop emits the minimum bar height for every bar and re-arms. -/
theorem floor_output_when_not_connected (sensitivity cooldownMs : ℚ)
    (maxRipples : ℕ) (s : LoopState) (now level rand : ℚ) (bars : ℕ)
    (binL : List BinRange) (buf : ℤ → ℝ) (containerHeight : ℝ) :
    rippleLoopBody sensitivity cooldownMs maxRipples false s
        ⟨false, now, level, rand⟩ = ({ s with level := 0 }, true) ∧
    barLoopBody false false bars binL buf containerHeight =
      (some (List.replicate bars (max 20 (containerHeight * 0.15))), true) :=
  ⟨rfl, rfl⟩

/-- C8 (counterexample): on a not-connected frame the loop returns before
`prevLevelRef.current = compressed`, so the stored previous level is left at
its old value (here `1/2`) and is not updated to the frame's level (`0`). -/
theorem prevLevel_stale_on_disconnected_frame :
    (rippleLoopBody (1/20) 120 12 false
        { prevLevel := 1/2, lastSpawn := 0, level := 1/2, ripples := [], spawns := [] }
        ⟨false, 130, 0, 0⟩).1.prevLevel = 1/2 ∧
    (rippleLoopBody (1/20) 120 12 false
        { prevLevel := 1/2, lastSpawn := 0, level := 1/2, ripples := [], spawns := [] }
        ⟨false, 130, 0, 0⟩).1.level = 0 ∧
    (1/2 : ℚ) ≠ 0 := by
  refine ⟨rfl, rfl, by norm_num⟩

/-- C8 (amended): on every frame the loop actually processes (not cancelled
and graph connected), the stored previous level is updated to the current
compressed level, whether or not a spawn occurs on that frame. -/
theorem prevLevel_updated_every_processed_frame (sensitivity cooldownMs : ℚ)
    (maxRipples : ℕ) (s : LoopState) (f : FrameInput) (hc : f.connected = true) :
    (rippleLoopBody sensitivity cooldownMs maxRipples false s f).1.prevLevel =
      f.level := by
  rw [rippleLoopBody]
  simp only [hc, Bool.false_eq_true, if_false, not_true_eq_false]

/-- Auxiliary invariant: one frame of the live ripple loop preserves
cooldown separation of the recorded spawn timestamps, and keeps every
recorded spawn timestamp at most `lastSpawn`. -/
lemma rippleLoopBody_spawn_inv (sensitivity cooldownMs : ℚ) (maxRipples : ℕ)
    (hcd : 0 ≤ cooldownMs) (s : LoopState) (f : FrameInput)
    (h1 : s.spawns.Pairwise (fun a b => b - a > cooldownMs))
    (h2 : ∀ t ∈ s.spawns, t ≤ s.lastSpawn) :
    ((rippleLoopBody sensitivity cooldownMs maxRipples false s f).1.spawns.Pairwise
        (fun a b => b - a > cooldownMs)) ∧
    (∀ t ∈ (rippleLoopBody sensitivity cooldownMs maxRipples false s f).1.spawns,
        t ≤ (rippleLoopBody sensitivity cooldownMs maxRipples false s f).1.lastSpawn) := by
  rw [rippleLoopBody]
  simp only [Bool.false_eq_true, if_false]
  by_cases hc : f.connected
  · simp only [hc, not_true_eq_false, if_false]
    split
    · rename_i hcond
      obtain ⟨-, -, hgap⟩ := hcond
      constructor
      · simp only
        rw [List.pairwise_append]
        refine ⟨h1, List.pairwise_singleton _ _, ?_⟩
        intro a ha b hb
        simp only [List.mem_singleton] at hb
        subst hb
        have := h2 a ha
        linarith
      · intro t ht
        simp only [List.mem_append, List.mem_singleton] at ht
        rcases ht with ht | ht
        · have := h2 t ht
          linarith
        · subst ht; exact le_refl _
    · exact ⟨h1, h2⟩
  · simp only [hc, not_false_eq_true, if_true]
    exact ⟨h1, h2⟩

/-- Auxiliary invariant: the previous lemma, extended over a whole run. -/
lemma rippleLoopRun_spawn_inv (sensitivity cooldownMs : ℚ) (maxRipples : ℕ)
    (hcd : 0 ≤ cooldownMs) (frames : List FrameInput) (s : LoopState)
    (h1 : s.spawns.Pairwise (fun a b => b - a > cooldownMs))
    (h2 : ∀ t ∈ s.spawns, t ≤ s.lastSpawn) :
    ((rippleLoopRun sensitivity cooldownMs maxRipples s frames).spawns.Pairwise
        (fun a b => b - a > cooldownMs)) ∧
    (∀ t ∈ (rippleLoopRun sensitivity cooldownMs maxRipples s frames).spawns,
        t ≤ (rippleLoopRun sensitivity cooldownMs maxRipples s frames).lastSpawn) := by
  induction frames generalizing s with
  | nil => exact ⟨h1, h2⟩
  | cons f fs ih =>
      have h := rippleLoopBody_spawn_inv sensitivity cooldownMs maxRipples hcd s f h1 h2
      exact ih _ h.1 h.2

/-- C2: over any sequence of frames (at arbitrary times, levels, and
connection states), the spawn timestamps recorded by the ripple loop are
strictly separated: every later spawn is more than `cooldownMs` after every
earlier one. -/
theorem detector_cooldown_separation (sensitivity cooldownMs : ℚ) (maxRipples : ℕ)
    (frames : List FrameInput) (hcd : 0 ≤ cooldownMs) :
    ((rippleLoopRun sensitivity cooldownMs maxRipples initLoopState frames).spawns).Pairwise
      (fun a b => b - a > cooldownMs) :=
  (rippleLoopRun_spawn_inv sensitivity cooldownMs maxRipples hcd frames initLoopState
    List.Pairwise.nil (by intro t ht; simp [initLoopState] at ht)).1

/-- C2 witness at a concrete configuration and frame sequence. -/
theorem detector_cooldown_separation_witness :
    ((rippleLoopRun (1/20) 120 12 initLoopState
        [⟨true, 200, 1, 0⟩, ⟨true, 210, 0, 0⟩, ⟨true, 400, 1, 0⟩]).spawns).Pairwise
      (fun a b => b - a > 120) :=
  detector_cooldown_separation (1/20) 120 12
    [⟨true, 200, 1, 0⟩, ⟨true, 210, 0, 0⟩, ⟨true, 400, 1, 0⟩] (by norm_num)

/-- C5: a frame the loop processes spawns a ripple iff the level is at or
above the sensitivity threshold, the previous level was below it, and more
than `cooldownMs` elapsed since the last spawn; and scenario B: with
sensitivity `0.05`, cooldown `120`, the levels `[0.01, 0.06, 0.02, 0.07]`
sampled 10 ms apart (starting late enough that the initial cooldown window
from `lastSpawn = 0` has passed) produce exactly one spawn — the second
crossing is suppressed by the cooldown. -/
theorem spawn_rule_iff_and_scenarioB (t0 : ℚ) (h : 110 < t0) :
    (∀ (sensitivity cooldownMs : ℚ) (maxRipples : ℕ) (s : LoopState)
        (f : FrameInput), f.connected = true →
        ((rippleLoopBody sensitivity cooldownMs maxRipples false s f).1.spawns.length
            = s.spawns.length + 1 ↔
          (f.level ≥ sensitivity ∧ s.prevLevel < sensitivity ∧
            f.now - s.lastSpawn > cooldownMs))) ∧
    (rippleLoopRun (1/20) 120 12 initLoopState
        [⟨true, t0, 1/100, 0⟩, ⟨true, t0 + 10, 6/100, 0⟩,
         ⟨true, t0 + 20, 2/100, 0⟩, ⟨true, t0 + 30, 7/100, 0⟩]).spawns.length = 1 := by
  constructor
  · intro sens cd maxR s f hc
    rw [rippleLoopBody]
    simp only [Bool.false_eq_true, if_false, hc, not_true_eq_false]
    split
    · rename_i hcond
      exact iff_of_true (by simp) hcond
    · rename_i hcond
      exact iff_of_false (by simp) hcond
  · have e1 : rippleLoopBody (1/20) 120 12 false initLoopState ⟨true, t0, 1/100, 0⟩ =
        ({ prevLevel := 1/100, lastSpawn := 0, level := 1/100,
           ripples := [], spawns := [] }, true) := by
      rw [rippleLoopBody]
      norm_num [initLoopState]
    have e2 : rippleLoopBody (1/20) 120 12 false
        { prevLevel := 1/100, lastSpawn := 0, level := 1/100,
          ripples := [], spawns := [] } ⟨true, t0 + 10, 6/100, 0⟩ =
        ({ prevLevel := 6/100, lastSpawn := t0 + 10, level := 6/100,
           ripples := [t0 + 10 + 0], spawns := [t0 + 10] }, true) := by
      rw [rippleLoopBody]
      norm_num [spawnPool]
      rw [if_pos (by linarith)]
      norm_num
    have e3 : rippleLoopBody (1/20) 120 12 false
        { prevLevel := 6/100, lastSpawn := t0 + 10, level := 6/100,
          ripples := [t0 + 10 + 0], spawns := [t0 + 10] } ⟨true, t0 + 20, 2/100, 0⟩ =
        ({ prevLevel := 2/100, lastSpawn := t0 + 10, level := 2/100,
           ripples := [t0 + 10 + 0], spawns := [t0 + 10] }, true) := by
      rw [rippleLoopBody]
      norm_num
    have e4 : rippleLoopBody (1/20) 120 12 false
        { prevLevel := 2/100, lastSpawn := t0 + 10, level := 2/100,
          ripples := [t0 + 10 + 0], spawns := [t0 + 10] } ⟨true, t0 + 30, 7/100, 0⟩ =
        ({ prevLevel := 7/100, lastSpawn := t0 + 10, level := 7/100,
           ripples := [t0 + 10 + 0], spawns := [t0 + 10] }, true) := by
      rw [rippleLoopBody]
      norm_num
    rw [rippleLoopRun]
    simp only [List.foldl_cons, List.foldl_nil, e1, e2, e3, e4]
    simp

/-- C5 witness: the theorem at the concrete start time `t0 = 200`. -/
theorem spawn_rule_iff_and_scenarioB_witness :
    (rippleLoopRun (1/20) 120 12 initLoopState
        [⟨true, 200, 1/100, 0⟩, ⟨true, 200 + 10, 6/100, 0⟩,
         ⟨true, 200 + 20, 2/100, 0⟩, ⟨true, 200 + 30, 7/100, 0⟩]).spawns.length = 1 :=
  (spawn_rule_iff_and_scenarioB 200 (by norm_num)).2

/-- C8 witness: the amended theorem at a concrete connected frame. -/
theorem prevLevel_updated_every_processed_frame_witness :
    (rippleLoopBody (1/20) 120 12 false initLoopState ⟨true, 200, 1, 0⟩).1.prevLevel =
      (1 : ℚ) :=
  prevLevel_updated_every_processed_frame (1/20) 120 12 initLoopState
    ⟨true, 200, 1, 0⟩ rfl

/-- `clamp` keeps a value inside `[lo, hi]` whenever `lo ≤ hi`. -/
lemma clamp_le_bounds (v lo hi : ℤ) (h : lo ≤ hi) :
    lo ≤ clamp v lo hi ∧ clamp v lo hi ≤ hi :=
  ⟨le_max_left _ _, max_le h (min_le_left _ _)⟩

/-- `clamp` is monotone in the clamped value and in the lower bound. -/
lemma clamp_mono (v w : ℤ) (lo lo' hi : ℤ) (hlo : lo ≤ lo') (h : v ≤ w) :
    clamp v lo hi ≤ clamp w lo' hi :=
  max_le_max hlo (min_le_min le_rfl h)

/-- The raw exponential bin position is monotone in the band index. -/
lemma binPos_mono (bars F : ℕ) {i j : ℕ} (hij : i ≤ j)
    (hM : (0:ℝ) ≤ (((F:ℤ)/2 - 1 : ℤ) : ℝ) - 2) :
    binPos bars F i ≤ binPos bars F j := by
  simp only [binPos]
  have ht : (i:ℝ)/(bars:ℝ) ≤ (j:ℝ)/(bars:ℝ) := by
    by_cases hb : bars = 0
    · subst hb; simp
    · have hbr : (0:ℝ) < (bars:ℝ) := by
        have h0 : 0 < bars := Nat.pos_of_ne_zero hb
        exact_mod_cast h0
      gcongr
  have hp : (10:ℝ) ^ ((i:ℝ)/(bars:ℝ)) ≤ (10:ℝ) ^ ((j:ℝ)/(bars:ℝ)) :=
    Real.rpow_le_rpow_of_exponent_le (by norm_num) ht
  nlinarith [hp, hM]

/-- C1 (amended): for every positive band count and every supported window
size, the bin mapping has exactly `bars` entries, every bound lies within
`[2, fftSize/2 - 1]`, the sequence of starts is non-decreasing, and
`end ≥ start` for every entry.  (`end > start` does not hold in general:
see the counterexample at `bars = 100`, `fftSize = 256`, band 4.) -/
theorem binMap_shape (bars F : ℕ) (hbars : 0 < bars)
    (hF : F = 256 ∨ F = 512 ∨ F = 1024 ∨ F = 2048) :
    (binMap bars F).length = bars ∧
    (∀ r ∈ binMap bars F,
        2 ≤ r.start ∧ r.start ≤ (F:ℤ)/2 - 1 ∧
        2 ≤ r.endIdx ∧ r.endIdx ≤ (F:ℤ)/2 - 1 ∧ r.start ≤ r.endIdx) ∧
    (binMap bars F).Pairwise (fun a b => a.start ≤ b.start) := by
  clear hbars
  have hhi : (3:ℤ) ≤ (F:ℤ)/2 - 1 := by
    rcases hF with rfl | rfl | rfl | rfl <;> norm_num
  have hM : (0:ℝ) ≤ (((F:ℤ)/2 - 1 : ℤ) : ℝ) - 2 := by
    rw [sub_nonneg, show (2:ℝ) = ((2:ℤ):ℝ) from by norm_num, Int.cast_le]
    omega
  refine ⟨by simp [binMap], ?_, ?_⟩
  · intro r hr
    rw [binMap, List.mem_map] at hr
    obtain ⟨i, hi, rfl⟩ := hr
    simp only [binEntry]
    refine ⟨(clamp_le_bounds _ _ _ (by omega)).1, (clamp_le_bounds _ _ _ (by omega)).2,
      ?_, (clamp_le_bounds _ _ _ (by omega)).2, ?_⟩
    · calc (2:ℤ) ≤ 2 + 1 := by norm_num
        _ ≤ clamp ⌊binPos bars F (i + 1)⌋ (2 + 1) ((F:ℤ)/2 - 1) :=
          (clamp_le_bounds _ _ _ (by omega)).1
    · exact clamp_mono _ _ _ _ _ (by norm_num)
        (Int.floor_mono (binPos_mono bars F (Nat.le_succ i) hM))
  · rw [binMap, List.pairwise_map]
    apply (List.pairwise_lt_range bars).imp
    intro a b hab
    simp only [binEntry]
    exact clamp_mono _ _ _ _ _ le_rfl
      (Int.floor_mono (binPos_mono bars F (le_of_lt hab) hM))

/-- C1 witness at `bars = 3`, `fftSize = 256`. -/
theorem binMap_shape_witness :
    (binMap 3 256).length = 3 ∧
    (∀ r ∈ binMap 3 256,
        2 ≤ r.start ∧ r.start ≤ ((256:ℕ):ℤ)/2 - 1 ∧
        2 ≤ r.endIdx ∧ r.endIdx ≤ ((256:ℕ):ℤ)/2 - 1 ∧ r.start ≤ r.endIdx) ∧
    (binMap 3 256).Pairwise (fun a b => a.start ≤ b.start) :=
  binMap_shape 3 256 (by norm_num) (by norm_num)

/-- Comparison of a rational with `10 ^ (1/n)` via `n`-th powers. -/
lemma le_rpow10_inv (a : ℝ) (ha : 0 ≤ a) (n : ℕ) (hn : n ≠ 0) (h : a ^ n ≤ 10) :
    a ≤ (10:ℝ) ^ (((n:ℕ):ℝ)⁻¹) := by
  have key : ((10:ℝ) ^ (((n:ℕ):ℝ)⁻¹)) ^ n = 10 :=
    Real.rpow_inv_natCast_pow (by norm_num) hn
  have hb : (0:ℝ) ≤ (10:ℝ) ^ (((n:ℕ):ℝ)⁻¹) := Real.rpow_nonneg (by norm_num) _
  exact (pow_le_pow_iff_left₀ ha hb hn).mp (by rw [key]; exact h)

/-- Strict comparison of `10 ^ (1/n)` with a rational via `n`-th powers. -/
lemma rpow10_inv_lt (a : ℝ) (ha : 0 ≤ a) (n : ℕ) (hn : n ≠ 0) (h : 10 < a ^ n) :
    (10:ℝ) ^ (((n:ℕ):ℝ)⁻¹) < a := by
  have key : ((10:ℝ) ^ (((n:ℕ):ℝ)⁻¹)) ^ n = 10 :=
    Real.rpow_inv_natCast_pow (by norm_num) hn
  have hb : (0:ℝ) ≤ (10:ℝ) ^ (((n:ℕ):ℝ)⁻¹) := Real.rpow_nonneg (by norm_num) _
  exact (pow_lt_pow_iff_left₀ hb ha hn).mp (by rw [key]; exact h)

/-- C1 (counterexample): at `bars = 100`, `fftSize = 256`, band 4 the two
floored positions coincide at 3, so the computed entry is
`{ start := 3, end := 3 }` — the claimed strict `end > start` fails. -/
theorem binMap_degenerate_entry :
    (binMap 100 256)[4]? = some { start := 3, endIdx := 3 } := by
  have hm : (binMap 100 256)[4]? = some (binEntry 100 256 4) := by
    simp [binMap]
  have floor4 : ⌊binPos 100 256 4⌋ = 3 := by
    have hexp : ((4:ℕ):ℝ) / ((100:ℕ):ℝ) = (((25:ℕ):ℝ))⁻¹ := by norm_num
    have hlo : (134/125 : ℝ) ≤ (10:ℝ) ^ (((25:ℕ):ℝ)⁻¹) :=
      le_rpow10_inv _ (by norm_num) 25 (by norm_num) (by norm_num)
    have hhi : (10:ℝ) ^ (((25:ℕ):ℝ)⁻¹) < (143/125 : ℝ) :=
      rpow10_inv_lt _ (by norm_num) 25 (by norm_num) (by norm_num)
    rw [Int.floor_eq_iff]
    simp only [binPos, hexp]
    rw [show ((((256:ℕ):ℤ)/2 - 1 : ℤ) : ℝ) = 127 from by norm_num]
    constructor
    · push_cast
      nlinarith [hlo]
    · push_cast
      nlinarith [hhi]
  have floor5 : ⌊binPos 100 256 (4 + 1)⌋ = 3 := by
    have hexp : (((4 + 1:ℕ)):ℝ) / ((100:ℕ):ℝ) = (((20:ℕ):ℝ))⁻¹ := by norm_num
    have hlo : (134/125 : ℝ) ≤ (10:ℝ) ^ (((20:ℕ):ℝ)⁻¹) :=
      le_rpow10_inv _ (by norm_num) 20 (by norm_num) (by norm_num)
    have hhi : (10:ℝ) ^ (((20:ℕ):ℝ)⁻¹) < (143/125 : ℝ) :=
      rpow10_inv_lt _ (by norm_num) 20 (by norm_num) (by norm_num)
    rw [Int.floor_eq_iff]
    simp only [binPos, hexp]
    rw [show ((((256:ℕ):ℤ)/2 - 1 : ℤ) : ℝ) = 127 from by norm_num]
    constructor
    · push_cast
      nlinarith [hlo]
    · push_cast
      nlinarith [hhi]
  rw [hm]
  simp only [binEntry, floor4, floor5]
  norm_num [clamp]

/-- C7: at `bars = 36`, `fftSize = 1024` the first entry starts at 2 and
the last (36th) entry ends at 511. -/
theorem binMap_scenarioA :
    ((binMap 36 1024)[0]?).map (fun r => r.start) = some 2 ∧
    ((binMap 36 1024)[35]?).map (fun r => r.endIdx) = some 511 := by
  have hm0 : (binMap 36 1024)[0]? = some (binEntry 36 1024 0) := by
    simp [binMap]
  have hm35 : (binMap 36 1024)[35]? = some (binEntry 36 1024 35) := by
    simp [binMap]
  have floor0 : ⌊binPos 36 1024 0⌋ = 2 := by
    have hv : binPos 36 1024 0 = ((2:ℤ):ℝ) := by
      simp only [binPos]
      rw [show ((0:ℕ):ℝ) / ((36:ℕ):ℝ) = 0 from by norm_num, Real.rpow_zero]
      norm_num
    rw [hv, Int.floor_intCast]
  have floor36 : ⌊binPos 36 1024 (35 + 1)⌋ = 511 := by
    have hv : binPos 36 1024 (35 + 1) = ((511:ℤ):ℝ) := by
      simp only [binPos]
      rw [show (((35 + 1:ℕ)):ℝ) / ((36:ℕ):ℝ) = 1 from by norm_num, Real.rpow_one]
      rw [show ((((1024:ℕ):ℤ)/2 - 1 : ℤ) : ℝ) = 511 from by norm_num]
      norm_num
    rw [hv, Int.floor_intCast]
  constructor
  · rw [hm0]
    simp only [binEntry, floor0, Option.map_some]
    norm_num [clamp]
  · rw [hm35]
    simp only [binEntry, floor36, Option.map_some]
    norm_num [clamp]

/-- C4: for every byte waveform buffer of positive length, the RMS-derived
ripple level — signed normalization, root-mean-square, gain 1.8, clamp at
1 — lies within `[0, 1]`. -/
theorem rippleLevel_mem_unitInterval (buf : List ℕ) (hlen : 0 < buf.length)
    (hbyte : ∀ b ∈ buf, b ≤ 255) :
    0 ≤ rippleLevel buf ∧ rippleLevel buf ≤ 1 := by
  clear hlen hbyte
  unfold rippleLevel
  exact ⟨le_min (by norm_num) (by positivity), min_le_left _ _⟩

/-- C4 witness at the buffer `[0, 255, 128]`. -/
theorem rippleLevel_mem_unitInterval_witness :
    0 ≤ rippleLevel [0, 255, 128] ∧ rippleLevel [0, 255, 128] ≤ 1 :=
  rippleLevel_mem_unitInterval [0, 255, 128] (by decide) (by decide)

/-- C10: for a bar whose bin range contains no indices (`end ≤ start`), the
guard `count ? sum / count : 0` defines the average as 0, and the emitted
bar height is exactly the configured minimum `0.15 * containerHeight`. -/
theorem empty_range_bar_is_floor (r : BinRange) (buf : ℤ → ℝ) (containerHeight : ℝ)
    (h : r.endIdx ≤ r.start) :
    barAvg r buf = 0 ∧ barPx r buf containerHeight = containerHeight * 0.15 := by
  have hcard : (Finset.Ico r.start r.endIdx).card = 0 := by
    rw [Finset.Ico_eq_empty (by omega)]
    rfl
  have havg : barAvg r buf = 0 := by
    rw [barAvg]
    simp [hcard]
  refine ⟨havg, ?_⟩
  rw [barPx, havg]
  have hz : ((0:ℝ)/255) ^ (0.6:ℝ) = 0 := by
    rw [zero_div, Real.zero_rpow (by norm_num)]
  simp only [hz]
  ring

/-- C10 witness at the degenerate range `[3, 3)`. -/
theorem empty_range_bar_is_floor_witness :
    barAvg { start := 3, endIdx := 3 } (fun _ => 0) = 0 ∧
    barPx { start := 3, endIdx := 3 } (fun _ => 0) 200 = 200 * 0.15 :=
  empty_range_bar_is_floor { start := 3, endIdx := 3 } (fun _ => 0) 200 (by decide)

end FMAudio
